import Mathlib

/-!
Shallow embedding of `src/lib/standalone.js` (the stylelint standalone
orchestrator) and proofs of the specification claims about it.

External collaborators (Node's `fs`, `path`, the `globby` and `ignore`
packages, `createStylelint`'s lint engine, the formatter registry and the
needless-disable analyzer) are modelled as explicit parameters in an `Env`
record; the orchestration logic itself is translated line by line from the
source.  Filesystem and engine effects are recorded in an explicit event
trace so that ordering claims ("before any I/O", "before any linting")
become statements about the trace.
-/

/-- A JavaScript `Error`-like object as used by `standalone.js`: a `name`
(e.g. "CssSyntaxError"), an errno-style `code` (e.g. "ENOENT"), and the
postcss syntax-error fields `reason`, `line`, `column`, `file`. -/
structure JsError where
  name : String := ""
  code : String := ""
  reason : String := ""
  line : Nat := 0
  column : Nat := 0
  file : Option String := none
deriving Repr, DecidableEq, Inhabited

/-- A stylelint warning object (source lines 151-157). -/
structure Warning where
  line : Nat
  column : Nat
  rule : String
  severity : String
  text : String
deriving Repr, DecidableEq, Inhabited

/-- A per-input stylelint result record (the shape built at source lines
146-158; engine-produced records share the same shape). -/
structure StylelintResult where
  source : String
  deprecations : List String
  invalidOptionWarnings : List String
  errored : Bool
  warnings : List Warning
deriving Repr, DecidableEq, Inhabited

/-- The value returned by a successful standalone invocation
(source lines 115-126). -/
structure Report where
  errored : Bool
  output : String
  results : List StylelintResult
  needlessDisables : Option (List String) := none
deriving Repr, DecidableEq, Inhabited

/-- The distinct rejection causes of a standalone invocation. -/
inductive StandaloneError where
  | config (message : String)
  | ignoreRead (e : JsError)
  | engine (e : JsError)
deriving Repr, DecidableEq, Inhabited

/-- Overall outcome of an invocation: a resolved Report or a rejection. -/
inductive Outcome where
  | report (r : Report)
  | rejected (e : StandaloneError)
deriving Repr, DecidableEq, Inhabited

/-- Observable effects of an invocation, recorded in order. -/
inductive Event where
  | readIgnore (path : String)
  | globExpand (patterns : List String)
  | lintFile (absolutePath : String)
  | lintCode (code : String) (codeFilename : Option String)
deriving Repr, DecidableEq, Inhabited

/-- Source line 11. -/
def DEFAULT_IGNORE_FILENAME : String := ".stylelintignore"

/-- Source line 12. -/
def FILE_NOT_FOUND_ERROR_CODE : String := "ENOENT"

/-- Source line 13. -/
def ALWAYS_IGNORED_GLOBS : List String :=
  ["**/node_modules/**", "**/bower_components/**"]

/-- Source line 45: the message of the files/code mutual-exclusion error. -/
def filesCodeErrorMessage : String :=
  "You must pass stylelint a `files` glob or a `code` string, though not both"

/-- Source line 52: the message of the invalid-formatter rejection. -/
def invalidFormatterMessage : String :=
  "You must use a valid formatter option: \x27json\x27, \x27string\x27, \x27verbose\x27, or a function"

/-- Prefix test on strings, by character list. -/
def strStartsWith (s pre : String) : Bool := pre.toList.isPrefixOf s.toList

/-- Drop the first `n` characters of a string. -/
def dropChars (s : String) (n : Nat) : String := String.mk (s.toList.drop n)

/-- Modelled from the spec: Node's `path.isAbsolute` (external module). -/
def isAbsolutePath (p : String) : Bool := strStartsWith p "/"

/-- Modelled from the spec: Node's `path.resolve(cwd, p)` (external module). -/
def resolvePath (cwd p : String) : String :=
  if isAbsolutePath p then p else cwd ++ "/" ++ p

/-- Modelled from the spec: Node's `path.join(cwd, p)` (external module). -/
def joinPath (cwd p : String) : String := cwd ++ "/" ++ p

/-- Modelled from the spec: Node's `path.relative(cwd, p)` (external module),
converting matched paths to working-directory-relative form. -/
def relativePath (cwd p : String) : String :=
  if strStartsWith p (cwd ++ "/") then dropChars p (cwd.length + 1) else p

/-- Source line 102-104: make a file path absolute against the cwd. -/
def absolutize (cwd p : String) : String :=
  if !isAbsolutePath p then joinPath cwd p else p

/-- Split a character list at every `\r\n` or `\n`, accumulating the
current line in reverse. -/
def splitLinesAux : List Char → List Char → List String
  | acc, [] => [String.mk acc.reverse]
  | acc, '\r' :: '\n' :: rest => String.mk acc.reverse :: splitLinesAux [] rest
  | acc, '\n' :: rest => String.mk acc.reverse :: splitLinesAux [] rest
  | acc, c :: rest => splitLinesAux (c :: acc) rest

/-- `ignoreText.split(/\r?\n/)` (source line 41): both line-ending
conventions are supported. -/
def splitLines (s : String) : List String :=
  splitLinesAux [] s.toList

/-- JavaScript `a || b` on an optional string: the default is used when the
value is absent or falsy (the empty string). -/
def jsOr (a : Option String) (b : String) : String :=
  match a with
  | none => b
  | some s => if s = "" then b else s

/-- The `files` option: a glob string or a list of globs (source line 16). -/
inductive FilesOpt where
  | str (s : String)
  | list (l : List String)
deriving Repr, DecidableEq, Inhabited

/-- The `code` option as a JavaScript value: a string, or a non-string value
of which only the truthiness is observable (source lines 17 and 43-44). -/
inductive CodeOpt where
  | str (s : String)
  | nonString (truthy : Bool)
deriving Repr, DecidableEq, Inhabited

/-- The `formatter` option: a registry name, a function, or absent
(source lines 48-58). -/
inductive FormatterOpt where
  | str (name : String)
  | fn (f : List StylelintResult → String)

/-- The orchestration-relevant standalone options (source lines 16-31;
the opaque pass-through options forwarded to `createStylelint` are
omitted as they are unobservable at this layer). -/
structure StandaloneOptions where
  files : Option FilesOpt := none
  code : Option CodeOpt := none
  codeFilename : Option String := none
  ignorePath : Option String := none
  disableDefaultIgnores : Bool := false
  formatter : Option FormatterOpt := none
  reportNeedlessDisables : Bool := false

/-- JavaScript truthiness of the `files` option: absent and the empty
string are falsy; any array (even empty) is truthy. -/
def filesTruthy : Option FilesOpt → Bool
  | none => false
  | some (.str s) => decide (s ≠ "")
  | some (.list _) => true

/-- JavaScript truthiness of the `code` option. -/
def codeTruthy : Option CodeOpt → Bool
  | none => false
  | some (.str s) => decide (s ≠ "")
  | some (.nonString t) => t

/-- Source line 43: `const isValidCode = typeof code === "string"`. -/
def isValidCode : Option CodeOpt → Bool
  | some (.str _) => true
  | _ => false

/-- Source line 44: `!files && !isValidCode || files && (code || isValidCode)`. -/
def filesCodeConflict (o : StandaloneOptions) : Bool :=
  (!filesTruthy o.files && !isValidCode o.code) ||
    (filesTruthy o.files && (codeTruthy o.code || isValidCode o.code))

/-- Modelled from the spec: the gitignore-style pattern semantics of the
external `ignore` package.  `matchesPattern pat path` decides whether one
ignore rule matches one path; a blank rule (empty line of the ignore file)
matches no path, per version-control ignore-file semantics. -/
structure GitignoreSemantics where
  matchesPattern : String → String → Bool
  blank_no_match : ∀ path, matchesPattern "" path = false

/-- `ignore().add(patterns).filter(paths)` (source lines 41 and 95): the
subset of paths matched by no rule, preserving relative order. -/
def ignoreFilter (g : GitignoreSemantics) (patterns : List String)
    (paths : List String) : List String :=
  paths.filter (fun p => !(patterns.any (fun pat => g.matchesPattern pat p)))

/-- The fixed registry of built-in formatters.  Modelled from the spec:
`lib/formatters` is not under `src/`; the registry binds the names
json, string and verbose to the external formatter implementations. -/
structure FormatterImpls where
  json : List StylelintResult → String
  string : List StylelintResult → String
  verbose : List StylelintResult → String

/-- Look a formatter name up in the registry (source line 50). -/
def formattersRegistry (fmts : FormatterImpls) (name : String) :
    Option (List StylelintResult → String) :=
  if name = "json" then some fmts.json
  else if name = "string" then some fmts.string
  else if name = "verbose" then some fmts.verbose
  else none

/-- Source lines 48-58: resolve the `formatter` option to a function, or
reject with a Configuration error for an unrecognized name; when the option
is neither a string nor a function the json formatter is the default. -/
def selectFormatter (fmts : FormatterImpls) :
    Option FormatterOpt → Except StandaloneError (List StylelintResult → String)
  | some (.str name) =>
    match formattersRegistry fmts name with
    | some f => .ok f
    | none => .error (.config invalidFormatterMessage)
  | some (.fn f) => .ok f
  | none => .ok fmts.json

/-- The result record synthesized from a CSS syntax error
(source lines 146-158). -/
def cssSyntaxResult (e : JsError) : StylelintResult :=
  { source := jsOr e.file "<input css 1>"
    deprecations := []
    invalidOptionWarnings := []
    errored := true
    warnings := [{ line := e.line
                   column := e.column
                   rule := e.name
                   severity := "error"
                   text := e.reason ++ " (" ++ e.name ++ ")" }] }

/-- Source lines 141-158: `convertCssSyntaxErrorToResult` re-throws any
error that is not a CssSyntaxError and otherwise returns the synthetic
result record. -/
def convertCssSyntaxErrorToResult (e : JsError) :
    Except JsError StylelintResult :=
  if e.name ≠ "CssSyntaxError" then .error e else .ok (cssSyntaxResult e)

/-- Source lines 129-135: `handleError` converts CSS syntax errors to
results and re-throws everything else. -/
def handleError (e : JsError) : Except JsError StylelintResult :=
  if e.name = "CssSyntaxError" then convertCssSyntaxErrorToResult e
  else .error e

/-- `.catch(handleError)` at the per-input boundary
(source lines 80 and 109). -/
def lintCatch (out : Except JsError StylelintResult) :
    Except JsError StylelintResult :=
  match out with
  | .ok r => .ok r
  | .error e => handleError e

/-- `Promise.all` over settled per-input outcomes (source line 112): all
values in input order, or the first rejection. -/
def collectResults :
    List (Except JsError StylelintResult) →
      Except JsError (List StylelintResult)
  | [] => .ok []
  | out :: rest =>
    match out with
    | .error e => .error e
    | .ok r =>
      match collectResults rest with
      | .ok rs => .ok (r :: rs)
      | .error e => .error e

/-- The external collaborators of one standalone invocation. -/
structure Env where
  cwd : String
  readIgnoreFile : String → Except JsError String
  glob : List String → List String
  lintFile : String → String → Except JsError StylelintResult
  lintCode : String → Option String → Except JsError StylelintResult
  gitignore : GitignoreSemantics
  formatters : FormatterImpls
  needlessDisables : List StylelintResult → List String

/-- Modelled from the spec: the pattern-matching semantics of the external
globby package; `globMatch pattern path` decides whether a glob pattern
matches a path. -/
structure GlobSemantics where
  globMatch : String → String → Bool

/-- Modelled from the spec: the external globby package's order-dependent
expansion.  Positive patterns add their filesystem matches in order
(without duplicates); a `!`-negated pattern removes its matches from the
set accumulated so far, so later patterns win over earlier ones. -/
def globbyModel (g : GlobSemantics) (fsFiles : List String)
    (patterns : List String) : List String :=
  patterns.foldl
    (fun acc pat =>
      if strStartsWith pat "!" then
        acc.filter (fun f => !(g.globMatch (dropChars pat 1) f))
      else
        acc ++ fsFiles.filter (fun f => g.globMatch pat f && !(acc.contains f)))
    []

/-- Source lines 115-126: `prepareReturnValue`. -/
def prepareReturnValue (formatterFunction : List StylelintResult → String)
    (reportNeedlessDisables : Bool)
    (needless : List StylelintResult → List String)
    (stylelintResults : List StylelintResult) : Report :=
  { errored := stylelintResults.any (fun result => result.errored)
    output := formatterFunction stylelintResults
    results := stylelintResults
    needlessDisables :=
      if reportNeedlessDisables then some (needless stylelintResults)
      else none }

/-- Source lines 85-91: normalize `files` to a list and, unless
`disableDefaultIgnores` is set, append the negated always-ignored globs. -/
def buildFileList (o : StandaloneOptions) : List String :=
  let fileList :=
    match o.files with
    | some (.str s) => [s]
    | some (.list l) => l
    | none => []
  if !o.disableDefaultIgnores then
    fileList ++ ALWAYS_IGNORED_GLOBS.map (fun glob => "!" ++ glob)
  else fileList

/-- One file lint with its per-input catch (source lines 101-110). -/
def lintOneFile (env : Env) (filePath : String) :
    Except JsError StylelintResult :=
  lintCatch (env.lintFile (absolutize env.cwd filePath) filePath)

/-- Source lines 93-95: the file paths that survive glob expansion,
conversion to cwd-relative form, and the ignore filter. -/
def survivingPaths (env : Env) (o : StandaloneOptions)
    (ignorerPatterns : List String) : List String :=
  ignoreFilter env.gitignore ignorerPatterns
    ((env.glob (buildFileList o)).map (fun p => relativePath env.cwd p))

/-- The string handed to `_lintSource` in inline mode: the `code` option
(validation guarantees it is a string when inline mode is reached). -/
def inlineCodeString (o : StandaloneOptions) : String :=
  match o.code with
  | some (.str s) => s
  | _ => ""

/-- Source lines 72-74: resolve `codeFilename` against cwd when relative. -/
def absoluteCodeFilename (env : Env) (o : StandaloneOptions) : Option String :=
  match o.codeFilename with
  | some f => if !isAbsolutePath f then some (joinPath env.cwd f) else some f
  | none => none

/-- Source lines 71-82: inline (`code`) mode. -/
def lintInlineMode (env : Env) (o : StandaloneOptions) (trace : List Event)
    (formatterFunction : List StylelintResult → String) :
    List Event × Outcome :=
  let ev := Event.lintCode (inlineCodeString o) (absoluteCodeFilename env o)
  match lintCatch (env.lintCode (inlineCodeString o) (absoluteCodeFilename env o)) with
  | .ok res =>
    (trace ++ [ev],
      .report (prepareReturnValue formatterFunction o.reportNeedlessDisables
        env.needlessDisables [res]))
  | .error e => (trace ++ [ev], .rejected (.engine e))

/-- Source lines 85-113: file (glob) mode. -/
def lintFilesMode (env : Env) (o : StandaloneOptions) (trace : List Event)
    (ignorerPatterns : List String)
    (formatterFunction : List StylelintResult → String) :
    List Event × Outcome :=
  let ev := Event.globExpand (buildFileList o)
  let filePaths := survivingPaths env o ignorerPatterns
  if filePaths.isEmpty then
    (trace ++ [ev],
      .report (prepareReturnValue formatterFunction o.reportNeedlessDisables
        env.needlessDisables []))
  else
    let lintEvents := filePaths.map (fun p => Event.lintFile (absolutize env.cwd p))
    match collectResults (filePaths.map (fun p => lintOneFile env p)) with
    | .ok rs =>
      (trace ++ [ev] ++ lintEvents,
        .report (prepareReturnValue formatterFunction o.reportNeedlessDisables
          env.needlessDisables rs))
    | .error e => (trace ++ [ev] ++ lintEvents, .rejected (.engine e))

/-- Source lines 41-113 after the ignore file has been read: build the
ignorer, validate the files/code options, select the formatter, and
dispatch to inline or file mode. -/
def standaloneAfterRead (env : Env) (o : StandaloneOptions)
    (trace : List Event) (ignoreText : String) : List Event × Outcome :=
  let ignorerPatterns := splitLines ignoreText
  if filesCodeConflict o then
    (trace, .rejected (.config filesCodeErrorMessage))
  else
    match selectFormatter env.formatters o.formatter with
    | .error err => (trace, .rejected err)
    | .ok formatterFunction =>
      if !filesTruthy o.files then
        lintInlineMode env o trace formatterFunction
      else
        lintFilesMode env o trace ignorerPatterns formatterFunction

/-- Source lines 31-34: the absolute path of the ignore file
(`options.ignorePath || DEFAULT_IGNORE_FILENAME`, resolved against cwd). -/
def resolvedIgnorePath (env : Env) (o : StandaloneOptions) : String :=
  let ignoreFilePath := jsOr o.ignorePath DEFAULT_IGNORE_FILENAME
  if isAbsolutePath ignoreFilePath then ignoreFilePath
  else resolvePath env.cwd ignoreFilePath

/-- The standalone entry point (source lines 15-127), returning the ordered
event trace together with the outcome.  Source lines 35-40: a missing
ignore file (ENOENT) leaves the ignore text empty; any other read failure
is re-thrown. -/
def standalone (env : Env) (o : StandaloneOptions) : List Event × Outcome :=
  match env.readIgnoreFile (resolvedIgnorePath env o) with
  | .error readError =>
    if readError.code ≠ FILE_NOT_FOUND_ERROR_CODE then
      ([Event.readIgnore (resolvedIgnorePath env o)],
        .rejected (.ignoreRead readError))
    else
      standaloneAfterRead env o [Event.readIgnore (resolvedIgnorePath env o)] ""
  | .ok text =>
    standaloneAfterRead env o [Event.readIgnore (resolvedIgnorePath env o)] text

/-- Whether an ignore-file read either succeeded or failed with the
file-not-found code (the two outcomes after which linting proceeds). -/
def readOkOrEnoent : Except JsError String → Bool
  | .ok _ => true
  | .error e => e.code == FILE_NOT_FOUND_ERROR_CODE

/-- The ignore text an invocation proceeds with: the file content on a
successful read and the empty string otherwise (source lines 35-40). -/
def textAfterRead : Except JsError String → String
  | .ok text => text
  | .error _ => ""

/-- Whether an outcome is a resolved Report. -/
def outcomeIsReport : Outcome → Bool
  | .report _ => true
  | .rejected _ => false

/-- Whether an outcome is a rejection. -/
def outcomeIsRejected : Outcome → Bool
  | .report _ => false
  | .rejected _ => true

/-- Whether a settled per-input outcome is a success or a recoverable CSS
syntax failure (the failures `handleError` converts rather than rethrows). -/
def allRecoverable (outs : List (Except JsError StylelintResult)) : Bool :=
  outs.all (fun out =>
    match out with
    | .ok _ => true
    | .error e => e.name == "CssSyntaxError")

/-- The value a per-input promise settles to after its catch boundary, when
its failure (if any) is recoverable. -/
def settleOutcome : Except JsError StylelintResult → StylelintResult
  | .ok r => r
  | .error e => cssSyntaxResult e

/-- Fill result slot `i` with `f i` for every index in `sched`, the order
in which the concurrently started operations complete. -/
def fillSlots (f : Nat → α) : List Nat → List (Option α) → List (Option α)
  | [], acc => acc
  | i :: rest, acc => fillSlots f rest (acc.set i (some (f i)))

/-- The batch executor viewed as index-aligned slot filling: each started
operation writes only its own slot, in completion order `sched`
(`Promise.all` semantics of source line 112). -/
def batchRun (env : Env) (inputs : List String) (sched : List Nat) :
    List (Option (Except JsError StylelintResult)) :=
  fillSlots (fun i => lintOneFile env (inputs.getD i ""))
    sched (List.replicate inputs.length none)

/-- A toy gitignore matcher for concrete test runs: a rule matches exactly
the path it spells (blank rules match nothing, as required). -/
def testGitignore : GitignoreSemantics where
  matchesPattern := fun pat path => pat != "" && pat == path
  blank_no_match := by intro path; simp

/-- Concrete formatter implementations for test runs. -/
def testFormatters : FormatterImpls where
  json := fun results => String.intercalate "," (results.map (fun r => r.source))
  string := fun _ => "string-output"
  verbose := fun _ => "verbose-output"

/-- A clean engine result for test runs. -/
def okResult : StylelintResult :=
  { source := "a.css"
    deprecations := []
    invalidOptionWarnings := []
    errored := false
    warnings := [] }

/-- An ENOENT read failure, as thrown for a missing ignore file. -/
def enoentError : JsError := { name := "Error", code := "ENOENT" }

/-- A permission-denied read failure, for exercising the fatal branch. -/
def eaccesError : JsError := { name := "Error", code := "EACCES" }

/-- A concrete CSS syntax error with no associated file (inline mode). -/
def unclosedBlockError : JsError :=
  { name := "CssSyntaxError", reason := "Unclosed block", line := 2, column := 5 }

/-- A concrete engine-internal failure (not a parse failure). -/
def engineCrashError : JsError :=
  { name := "TypeError", reason := "boom" }

/-- A concrete environment: no ignore file, one matching file, an engine
that lints everything cleanly. -/
def testEnv : Env where
  cwd := "/cwd"
  readIgnoreFile := fun _ => .error enoentError
  glob := fun _ => ["/cwd/a.css"]
  lintFile := fun _ _ => .ok okResult
  lintCode := fun _ _ => .ok okResult
  gitignore := testGitignore
  formatters := testFormatters
  needlessDisables := fun _ => []

/-- A toy glob matcher for concrete test runs: a fixed match table over
two patterns and two files. -/
def testGlob : GlobSemantics where
  globMatch := fun pat path =>
    (pat == "*.css" && (path == "a.css" || path == "node_modules/a.css"))
      || (pat == "**/node_modules/**" && path == "node_modules/a.css")

/-! ## Helper lemmas -/

theorem standalone_read_proceeds (env : Env) (o : StandaloneOptions)
    (h : readOkOrEnoent (env.readIgnoreFile (resolvedIgnorePath env o)) = true) :
    standalone env o =
      standaloneAfterRead env o [Event.readIgnore (resolvedIgnorePath env o)]
        (textAfterRead (env.readIgnoreFile (resolvedIgnorePath env o))) := by
  unfold standalone
  cases hre : env.readIgnoreFile (resolvedIgnorePath env o) with
  | ok t => simp [hre, textAfterRead]
  | error e =>
    rw [hre] at h
    simp only [readOkOrEnoent, beq_iff_eq] at h
    simp [hre, h, textAfterRead]

theorem standalone_read_fatal (env : Env) (o : StandaloneOptions) (e : JsError)
    (h : env.readIgnoreFile (resolvedIgnorePath env o) = .error e)
    (hc : e.code ≠ FILE_NOT_FOUND_ERROR_CODE) :
    standalone env o =
      ([Event.readIgnore (resolvedIgnorePath env o)],
        .rejected (.ignoreRead e)) := by
  unfold standalone
  rw [h]
  simp [hc]

theorem afterRead_conflict (env : Env) (o : StandaloneOptions)
    (tr : List Event) (txt : String) (h : filesCodeConflict o = true) :
    standaloneAfterRead env o tr txt =
      (tr, .rejected (.config filesCodeErrorMessage)) := by
  unfold standaloneAfterRead
  simp [h]

theorem prepareReturnValue_shape (f : List StylelintResult → String)
    (rnd : Bool) (nd : List StylelintResult → List String)
    (rs : List StylelintResult) :
    (prepareReturnValue f rnd nd rs).results = rs ∧
      (prepareReturnValue f rnd nd rs).output = f rs ∧
      (prepareReturnValue f rnd nd rs).errored = rs.any (fun x => x.errored) ∧
      (prepareReturnValue f rnd nd rs).needlessDisables =
        (if rnd then some (nd rs) else none) := by
  simp [prepareReturnValue]

theorem afterRead_report_inversion (env : Env) (o : StandaloneOptions)
    (tr tr' : List Event) (txt : String) (r : Report)
    (h : standaloneAfterRead env o tr txt = (tr', .report r)) :
    ∃ fmtFn, selectFormatter env.formatters o.formatter = .ok fmtFn ∧
      r.output = fmtFn r.results ∧
      r.errored = r.results.any (fun x => x.errored) ∧
      r.needlessDisables =
        (if o.reportNeedlessDisables
         then some (env.needlessDisables r.results) else none) := by
  unfold standaloneAfterRead at h
  split at h
  · simp at h
  · split at h
    next heq => simp at h
    next fmtFn heq =>
      refine ⟨fmtFn, heq, ?_⟩
      split at h
      · unfold lintInlineMode at h
        split at h
        next res hres =>
          simp only [Prod.mk.injEq, Outcome.report.injEq] at h
          simp [← h.2, prepareReturnValue]
        next e he => simp at h
      · unfold lintFilesMode at h
        dsimp only at h
        split at h
        · simp only [Prod.mk.injEq, Outcome.report.injEq] at h
          simp [← h.2, prepareReturnValue]
        · split at h
          next rs hrs =>
            simp only [Prod.mk.injEq, Outcome.report.injEq] at h
            simp [← h.2, prepareReturnValue]
          next e he => simp at h

theorem collectResults_ok_iff (l : List (Except JsError StylelintResult))
    (rs : List StylelintResult) (h : collectResults l = .ok rs) :
    l = rs.map Except.ok := by
  induction l generalizing rs with
  | nil =>
    unfold collectResults at h
    cases h
    rfl
  | cons out rest ih =>
    unfold collectResults at h
    cases out with
    | error e => simp at h
    | ok r =>
      cases hrest : collectResults rest with
      | ok rs0 =>
        rw [hrest] at h
        cases h
        simp [ih rs0 hrest]
      | error e => rw [hrest] at h; simp at h

theorem collectResults_error_of_mem (l : List (Except JsError StylelintResult))
    (e : JsError) (hmem : Except.error e ∈ l) :
    ∀ rs, collectResults l ≠ .ok rs := by
  induction l with
  | nil => cases hmem
  | cons out rest ih =>
    intro rs h
    unfold collectResults at h
    cases out with
    | error e0 => simp at h
    | ok r =>
      have hmem0 : Except.error e ∈ rest := by
        rcases List.mem_cons.mp hmem with h0 | h0
        · cases h0
        · exact h0
      cases hrest : collectResults rest with
      | ok rs0 => exact ih hmem0 rs0 hrest
      | error e0 => rw [hrest] at h; simp at h

theorem collectResults_allRecoverable
    (l : List (Except JsError StylelintResult))
    (h : allRecoverable l = true) :
    collectResults (l.map lintCatch) = .ok (l.map settleOutcome) := by
  induction l with
  | nil => rfl
  | cons out rest ih =>
    simp only [allRecoverable, List.all_cons, Bool.and_eq_true] at h
    have hrest := ih (by simpa [allRecoverable] using h.2)
    cases out with
    | ok r =>
      simp only [List.map_cons, lintCatch, settleOutcome]
      unfold collectResults
      rw [hrest]
    | error e =>
      have hname : e.name = "CssSyntaxError" := by
        simpa using h.1
      have hcatch : lintCatch (Except.error e) = .ok (cssSyntaxResult e) := by
        simp [lintCatch, handleError, hname, convertCssSyntaxErrorToResult]
      simp only [List.map_cons, settleOutcome, hcatch]
      unfold collectResults
      rw [hrest]

theorem fillSlots_length (f : Nat → α) (sched : List Nat)
    (acc : List (Option α)) :
    (fillSlots f sched acc).length = acc.length := by
  induction sched generalizing acc with
  | nil => rfl
  | cons i rest ih => simp [fillSlots, ih]

theorem fillSlots_getElem? (f : Nat → α) (sched : List Nat)
    (acc : List (Option α)) (j : Nat) :
    (fillSlots f sched acc)[j]? =
      (if j ∈ sched ∧ j < acc.length then some (some (f j)) else acc[j]?) := by
  induction sched generalizing acc with
  | nil => simp [fillSlots]
  | cons i rest ih =>
    simp only [fillSlots]
    rw [ih]
    simp only [List.length_set]
    by_cases hjl : j < acc.length
    · by_cases hj : j ∈ rest
      · simp [hj, hjl, List.mem_cons]
      · by_cases hji : j = i
        · subst hji
          simp [hj, hjl, List.mem_cons, List.getElem?_set_eq_of_lt _ hjl]
        · simp [hj, hji, hjl, List.mem_cons,
            List.getElem?_set_ne (fun h => hji h.symm)]
    · have h1 : acc[j]? = none := List.getElem?_eq_none (by omega)
      have h2 : (acc.set i (some (f i)))[j]? = none :=
        List.getElem?_eq_none (by simp; omega)
      simp [hjl, h1, h2]

theorem ignoreFilter_blank (g : GitignoreSemantics) (paths : List String) :
    ignoreFilter g (splitLines "") paths = paths := by
  have hsplit : splitLines "" = [""] := rfl
  rw [hsplit]
  unfold ignoreFilter
  apply List.filter_eq_self.mpr
  intro p _
  simp [g.blank_no_match p]

/-! ## Claim theorems -/

/-- C1 (counterexample): with both `files` and `code` supplied, the
invocation does reject with the Configuration error — but only after the
ignore file has been read: the event trace records the ignore-file read,
refuting "fails with a Configuration error before any filesystem I/O
occurs (in particular, before the ignore file is read)". -/
theorem c1_counterexample :
    (standalone testEnv
        { files := some (.str "a.css"), code := some (.str "x") }).2 =
        .rejected (.config filesCodeErrorMessage) ∧
      Event.readIgnore "/cwd/.stylelintignore" ∈
        (standalone testEnv
          { files := some (.str "a.css"), code := some (.str "x") }).1 := by
  decide

/-- C1 (amended): for every options object in which both `files` and `code`
are supplied, or in which neither is supplied, the invocation fails with a
Configuration error before any glob expansion or lint work occurs; the
ignore-file read, however, happens first — it is the only filesystem event
in the trace. -/
theorem c1_conflict_rejects_before_glob_and_lint (env : Env)
    (o : StandaloneOptions)
    (hboth_or_neither :
      (filesTruthy o.files = true ∧ isValidCode o.code = true) ∨
        (filesTruthy o.files = false ∧ isValidCode o.code = false))
    (hread :
      readOkOrEnoent (env.readIgnoreFile (resolvedIgnorePath env o)) = true) :
    standalone env o =
      ([Event.readIgnore (resolvedIgnorePath env o)],
        .rejected (.config filesCodeErrorMessage)) := by
  have hconflict : filesCodeConflict o = true := by
    unfold filesCodeConflict
    rcases hboth_or_neither with ⟨h1, h2⟩ | ⟨h1, h2⟩ <;> simp [h1, h2]
  rw [standalone_read_proceeds env o hread]
  exact afterRead_conflict env o _ _ hconflict

/-- C1 witness: a concrete both-supplied invocation rejected with the
Configuration error after only the ignore-file read. -/
theorem c1_witness :
    standalone testEnv { files := some (.str "a.css"), code := some (.str "x") } =
      ([Event.readIgnore "/cwd/.stylelintignore"],
        .rejected (.config filesCodeErrorMessage)) :=
  c1_conflict_rejects_before_glob_and_lint testEnv
    { files := some (.str "a.css"), code := some (.str "x") }
    (Or.inl ⟨by decide, by decide⟩) (by decide)

/-- C2: a recoverable parse failure (error named "CssSyntaxError") on input
`i` does not abort the batch: when every input's outcome is a success or a
recoverable failure, `Promise.all` over the caught outcomes resolves, has
one result per input, and result `i` is the synthetic record with
`errored = true` and exactly one warning whose rule is the failure's type
name, whose text is the reason followed by the type name in parentheses,
whose line/column/severity come from the failure, and whose source is the
failure's file or the placeholder when no file is associated. -/
theorem c2_recoverable_parse_failure (outs : List (Except JsError StylelintResult))
    (i : Nat) (e : JsError)
    (hi : outs[i]? = some (.error e))
    (hname : e.name = "CssSyntaxError")
    (hfile : e.file ≠ some "")
    (hrec : allRecoverable outs = true) :
    collectResults (outs.map lintCatch) = .ok (outs.map settleOutcome) ∧
      (outs.map settleOutcome).length = outs.length ∧
      (outs.map settleOutcome)[i]? = some
        { source := (match e.file with | none => "<input css 1>" | some f => f)
          deprecations := []
          invalidOptionWarnings := []
          errored := true
          warnings := [{ line := e.line
                         column := e.column
                         rule := e.name
                         severity := "error"
                         text := e.reason ++ " (" ++ e.name ++ ")" }] } := by
  refine ⟨collectResults_allRecoverable outs hrec, by simp, ?_⟩
  have hmap : (outs.map settleOutcome)[i]? = some (settleOutcome (.error e)) := by
    rw [List.getElem?_map, hi]
    rfl
  rw [hmap]
  unfold settleOutcome cssSyntaxResult
  cases hf : e.file with
  | none => simp [jsOr, hf]
  | some f =>
    have hne : f ≠ "" := fun hcontra => hfile (by rw [hf, hcontra])
    simp [jsOr, hf, hne]

/-- C2 witness: a concrete two-input batch where input 0 fails with a CSS
syntax error and input 1 succeeds resolves to two results, the first being
the synthetic record. -/
theorem c2_witness :
    collectResults
        ([Except.error unclosedBlockError, Except.ok okResult].map lintCatch) =
        .ok ([Except.error unclosedBlockError,
          Except.ok okResult].map settleOutcome) ∧
      ([Except.error unclosedBlockError,
        Except.ok okResult].map settleOutcome).length = 2 ∧
      ([Except.error unclosedBlockError,
        Except.ok okResult].map settleOutcome)[0]? = some
        { source := "<input css 1>"
          deprecations := []
          invalidOptionWarnings := []
          errored := true
          warnings := [{ line := 2
                         column := 5
                         rule := "CssSyntaxError"
                         severity := "error"
                         text := "Unclosed block (CssSyntaxError)" }] } :=
  c2_recoverable_parse_failure
    [Except.error unclosedBlockError, Except.ok okResult]
    0 unclosedBlockError (by rfl) (by decide) (by decide) (by decide)

/-- C3: a per-input failure whose type name is not "CssSyntaxError"
propagates: the batch collection never resolves, the whole standalone
invocation is rejected, and every invocation's outcome is either a complete
Report or a rejection — there is no partial state. -/
theorem c3_fatal_failure_rejects_batch (env : Env) (o : StandaloneOptions)
    (fmtFn : List StylelintResult → String) (paths : List String)
    (p : String) (e : JsError) (inputs : List String)
    (rs : List StylelintResult) (env2 : Env) (o2 : StandaloneOptions)
    (hname : e.name ≠ "CssSyntaxError")
    (hmemInputs : p ∈ inputs)
    (herr : env.lintFile (absolutize env.cwd p) p = .error e)
    (hread :
      readOkOrEnoent (env.readIgnoreFile (resolvedIgnorePath env o)) = true)
    (hconf : filesCodeConflict o = false)
    (hfiles : filesTruthy o.files = true)
    (hfmt : selectFormatter env.formatters o.formatter = .ok fmtFn)
    (hsurv : survivingPaths env o
      (splitLines
        (textAfterRead (env.readIgnoreFile (resolvedIgnorePath env o)))) =
      paths)
    (hmem : p ∈ paths) :
    collectResults (inputs.map (fun q => lintOneFile env q)) ≠ .ok rs ∧
      outcomeIsRejected (standalone env o).2 = true ∧
      (outcomeIsReport (standalone env2 o2).2 = true ∨
        outcomeIsRejected (standalone env2 o2).2 = true) := by
  have hcatch : lintOneFile env p = .error e := by
    unfold lintOneFile
    rw [herr]
    simp [lintCatch, handleError, hname]
  refine ⟨?_, ?_, ?_⟩
  · intro hok
    have hmemErr : Except.error e ∈ inputs.map (fun q => lintOneFile env q) :=
      List.mem_map.mpr ⟨p, hmemInputs, hcatch⟩
    exact collectResults_error_of_mem _ e hmemErr rs hok
  · rw [standalone_read_proceeds env o hread]
    unfold standaloneAfterRead
    rw [hfmt]
    simp only [hconf, Bool.false_eq_true, if_false, hfiles, Bool.not_true]
    unfold lintFilesMode
    rw [hsurv]
    have hne : paths.isEmpty = false := by
      cases paths with
      | nil => cases hmem
      | cons a l => rfl
    simp only [hne, Bool.false_eq_true, if_false]
    have hmemErr : Except.error e ∈ paths.map (fun q => lintOneFile env q) :=
      List.mem_map.mpr ⟨p, hmem, hcatch⟩
    cases hcoll : collectResults (paths.map (fun q => lintOneFile env q)) with
    | ok rs0 => exact absurd hcoll (collectResults_error_of_mem _ e hmemErr rs0)
    | error e2 => simp [outcomeIsRejected]
  · cases hout : (standalone env2 o2).2 with
    | report r => simp [outcomeIsReport]
    | rejected err => simp [outcomeIsRejected]

/-- C3 witness: a one-file batch whose engine raises a TypeError rejects,
and a clean invocation resolves to a Report. -/
theorem c3_witness :
    collectResults (["a.css"].map (fun q =>
        lintOneFile { testEnv with lintFile := fun _ _ => .error engineCrashError } q)) ≠
        .ok [okResult] ∧
      outcomeIsRejected
        ((standalone { testEnv with lintFile := fun _ _ => .error engineCrashError }
          { files := some (.list ["*.css"]) }).2) = true ∧
      (outcomeIsReport ((standalone testEnv { code := some (.str "x") }).2) = true ∨
        outcomeIsRejected ((standalone testEnv { code := some (.str "x") }).2) = true) :=
  c3_fatal_failure_rejects_batch
    { testEnv with lintFile := fun _ _ => .error engineCrashError }
    { files := some (.list ["*.css"]) }
    testFormatters.json ["a.css"] "a.css" engineCrashError ["a.css"] [okResult]
    testEnv { code := some (.str "x") }
    (by decide) (by decide) (by rfl) (by decide) (by decide) (by decide)
    (by rfl) (by decide) (by decide)

/-- C4: the Report's `errored` field is the disjunction of the result
records' `errored` fields, and when zero file paths survive glob expansion
and ignore filtering the invocation resolves to a Report with an empty
results sequence and `errored = false` rather than an error. -/
theorem c4_errored_is_disjunction (f : List StylelintResult → String)
    (rnd : Bool) (nd : List StylelintResult → List String)
    (rs : List StylelintResult) (env : Env) (o : StandaloneOptions)
    (fmtFn : List StylelintResult → String)
    (hread :
      readOkOrEnoent (env.readIgnoreFile (resolvedIgnorePath env o)) = true)
    (hconf : filesCodeConflict o = false)
    (hfiles : filesTruthy o.files = true)
    (hfmt : selectFormatter env.formatters o.formatter = .ok fmtFn)
    (hempty : survivingPaths env o
      (splitLines
        (textAfterRead (env.readIgnoreFile (resolvedIgnorePath env o)))) =
      []) :
    (prepareReturnValue f rnd nd rs).errored =
        rs.any (fun result => result.errored) ∧
      standalone env o =
        ([Event.readIgnore (resolvedIgnorePath env o),
          Event.globExpand (buildFileList o)],
          .report (prepareReturnValue fmtFn o.reportNeedlessDisables
            env.needlessDisables [])) ∧
      (prepareReturnValue fmtFn o.reportNeedlessDisables
        env.needlessDisables []).results = [] ∧
      (prepareReturnValue fmtFn o.reportNeedlessDisables
        env.needlessDisables []).errored = false := by
  refine ⟨rfl, ?_, rfl, rfl⟩
  rw [standalone_read_proceeds env o hread]
  unfold standaloneAfterRead
  rw [hfmt]
  simp only [hconf, Bool.false_eq_true, if_false, hfiles, Bool.not_true]
  unfold lintFilesMode
  rw [hempty]
  rfl

/-- C4 witness: a concrete invocation whose only glob match is filtered out
by the ignore file yields an empty, non-errored Report. -/
theorem c4_witness :
    (prepareReturnValue testFormatters.json false testEnv.needlessDisables
        [okResult]).errored = [okResult].any (fun result => result.errored) ∧
      standalone { testEnv with readIgnoreFile := fun _ => .ok "a.css" }
        { files := some (.list ["*.css"]) } =
        ([Event.readIgnore "/cwd/.stylelintignore",
          Event.globExpand
            ["*.css", "!**/node_modules/**", "!**/bower_components/**"]],
          .report (prepareReturnValue testFormatters.json false
            testEnv.needlessDisables [])) ∧
      (prepareReturnValue testFormatters.json false
        testEnv.needlessDisables []).results = [] ∧
      (prepareReturnValue testFormatters.json false
        testEnv.needlessDisables []).errored = false :=
  c4_errored_is_disjunction testFormatters.json false testEnv.needlessDisables
    [okResult] { testEnv with readIgnoreFile := fun _ => .ok "a.css" }
    { files := some (.list ["*.css"]) } testFormatters.json
    (by decide) (by decide) (by decide) (by rfl) (by decide)

/-- C5: when the ignore file is missing the ignore text is empty, so the
matcher is built from no effective patterns and filters nothing
(`filter(paths) = paths`), and the invocation proceeds exactly as with an
empty ignore file; any other read failure rejects the invocation
immediately — the only event in its trace is the ignore-file read, so no
linting has started. -/
theorem c5_ignore_file_read (g : GitignoreSemantics) (paths : List String)
    (env : Env) (o : StandaloneOptions) (e : JsError)
    (env2 : Env) (o2 : StandaloneOptions) (e2 : JsError)
    (herr : env.readIgnoreFile (resolvedIgnorePath env o) = .error e)
    (hcode : e.code ≠ FILE_NOT_FOUND_ERROR_CODE)
    (herr2 : env2.readIgnoreFile (resolvedIgnorePath env2 o2) = .error e2)
    (hcode2 : e2.code = FILE_NOT_FOUND_ERROR_CODE) :
    ignoreFilter g (splitLines "") paths = paths ∧
      standalone env o =
        ([Event.readIgnore (resolvedIgnorePath env o)],
          .rejected (.ignoreRead e)) ∧
      standalone env2 o2 =
        standaloneAfterRead env2 o2
          [Event.readIgnore (resolvedIgnorePath env2 o2)] "" := by
  refine ⟨ignoreFilter_blank g paths,
    standalone_read_fatal env o e herr hcode, ?_⟩
  have hok : readOkOrEnoent (env2.readIgnoreFile (resolvedIgnorePath env2 o2)) = true := by
    rw [herr2]
    simp [readOkOrEnoent, hcode2]
  rw [standalone_read_proceeds env2 o2 hok, herr2]
  rfl

/-- C5 witness: with a permissions failure the invocation rejects after the
read alone; with a missing file it proceeds as with empty content, and the
blank-built matcher filters nothing. -/
theorem c5_witness :
    ignoreFilter testGitignore (splitLines "") ["a.css", "b.css"] =
        ["a.css", "b.css"] ∧
      standalone { testEnv with readIgnoreFile := fun _ => .error eaccesError }
        { files := some (.list ["*.css"]) } =
        ([Event.readIgnore "/cwd/.stylelintignore"],
          .rejected (.ignoreRead eaccesError)) ∧
      standalone testEnv { files := some (.list ["*.css"]) } =
        standaloneAfterRead testEnv { files := some (.list ["*.css"]) }
          [Event.readIgnore "/cwd/.stylelintignore"] "" :=
  c5_ignore_file_read testGitignore ["a.css", "b.css"]
    { testEnv with readIgnoreFile := fun _ => .error eaccesError }
    { files := some (.list ["*.css"]) } eaccesError
    testEnv { files := some (.list ["*.css"]) } enoentError
    (by rfl) (by decide) (by rfl) (by decide)

/-- C6: with default ignores enabled, the negated always-ignored globs are
appended to the end of the user's pattern list (never prepended); under the
order-dependent glob expansion this removes every path matching a default
exclusion glob regardless of the user patterns, while paths matching
neither default glob are kept or dropped exactly as they would be by the
user patterns alone. -/
theorem c6_default_ignores_appended (o : StandaloneOptions) (l : List String)
    (g : GlobSemantics) (fsFiles : List String) (p q : String)
    (hdis : o.disableDefaultIgnores = false)
    (hfiles : o.files = some (.list l))
    (hp : g.globMatch "**/node_modules/**" p = true ∨
      g.globMatch "**/bower_components/**" p = true)
    (hq1 : g.globMatch "**/node_modules/**" q = false)
    (hq2 : g.globMatch "**/bower_components/**" q = false) :
    buildFileList o =
        l ++ ["!**/node_modules/**", "!**/bower_components/**"] ∧
      p ∉ globbyModel g fsFiles (buildFileList o) ∧
      (q ∈ globbyModel g fsFiles (buildFileList o) ↔
        q ∈ globbyModel g fsFiles l) := by
  have hbl : buildFileList o =
      l ++ ["!**/node_modules/**", "!**/bower_components/**"] := by
    simp [buildFileList, hfiles, hdis, ALWAYS_IGNORED_GLOBS]
  have hfold : globbyModel g fsFiles (buildFileList o) =
      ((globbyModel g fsFiles l).filter
        (fun f => !(g.globMatch "**/node_modules/**" f))).filter
        (fun f => !(g.globMatch "**/bower_components/**" f)) := by
    rw [hbl]
    unfold globbyModel
    rw [List.foldl_append]
    rfl
  refine ⟨hbl, ?_, ?_⟩
  · rw [hfold]
    intro hmem
    have h1 := List.mem_filter.mp hmem
    have h2 := List.mem_filter.mp h1.1
    rcases hp with hnm | hbw
    · rw [hnm] at h2
      simp at h2
    · rw [hbw] at h1
      simp at h1
  · rw [hfold]
    constructor
    · intro hmem
      exact (List.mem_filter.mp (List.mem_filter.mp hmem).1).1
    · intro hmem
      refine List.mem_filter.mpr ⟨List.mem_filter.mpr ⟨hmem, ?_⟩, ?_⟩
      · simp [hq1]
      · simp [hq2]

/-- C6 witness: with user pattern `*.css` matching a file inside
node_modules, the appended default exclusions remove it while the plain
css file's membership is unchanged. -/
theorem c6_witness :
    buildFileList { files := some (.list ["*.css"]) } =
        ["*.css"] ++ ["!**/node_modules/**", "!**/bower_components/**"] ∧
      "node_modules/a.css" ∉
        globbyModel testGlob ["a.css", "node_modules/a.css"]
          (buildFileList { files := some (.list ["*.css"]) }) ∧
      ("a.css" ∈ globbyModel testGlob ["a.css", "node_modules/a.css"]
          (buildFileList { files := some (.list ["*.css"]) }) ↔
        "a.css" ∈ globbyModel testGlob ["a.css", "node_modules/a.css"]
          ["*.css"]) :=
  c6_default_ignores_appended { files := some (.list ["*.css"]) } ["*.css"]
    testGlob ["a.css", "node_modules/a.css"] "node_modules/a.css" "a.css"
    (by decide) (by decide) (Or.inl (by decide)) (by decide) (by decide)

theorem standalone_report_inversion (env : Env) (o : StandaloneOptions)
    (tr : List Event) (r : Report)
    (h : standalone env o = (tr, .report r)) :
    ∃ fmtFn, selectFormatter env.formatters o.formatter = .ok fmtFn ∧
      r.output = fmtFn r.results ∧
      r.errored = r.results.any (fun x => x.errored) ∧
      r.needlessDisables =
        (if o.reportNeedlessDisables
         then some (env.needlessDisables r.results) else none) := by
  unfold standalone at h
  have key : ∃ tr0 txt, standaloneAfterRead env o tr0 txt = (tr, .report r) := by
    cases hre : env.readIgnoreFile (resolvedIgnorePath env o) with
    | error e =>
      rw [hre] at h
      dsimp only at h
      by_cases hc : e.code ≠ FILE_NOT_FOUND_ERROR_CODE
      · rw [if_pos hc] at h
        simp at h
      · rw [if_neg hc] at h
        exact ⟨_, _, h⟩
    | ok t =>
      rw [hre] at h
      exact ⟨_, _, h⟩
  obtain ⟨tr0, txt, har⟩ := key
  exact afterRead_report_inversion env o tr0 tr txt r har

/-- C7: a Report carries the `needlessDisables` field exactly when
`reportNeedlessDisables` was requested: the field is `some` analysis result
if the option is set and entirely absent (`none`) otherwise. -/
theorem c7_needless_disables_iff (env : Env) (o : StandaloneOptions)
    (tr : List Event) (r : Report)
    (h : standalone env o = (tr, .report r)) :
    r.needlessDisables.isSome = o.reportNeedlessDisables := by
  obtain ⟨fmtFn, _, _, _, hnd⟩ := standalone_report_inversion env o tr r h
  rw [hnd]
  cases hrnd : o.reportNeedlessDisables <;> simp

/-- C7 witness: a concrete run without the option yields a Report whose
`needlessDisables` field is absent, and one with the option yields a
present (if empty) field. -/
theorem c7_witness :
    ({ errored := false, output := "a.css", results := [okResult],
        needlessDisables := none } : Report).needlessDisables.isSome = false ∧
      ({ errored := false, output := "a.css", results := [okResult],
          needlessDisables := some [] } : Report).needlessDisables.isSome =
        true :=
  ⟨c7_needless_disables_iff testEnv { files := some (.list ["*.css"]) }
      [Event.readIgnore "/cwd/.stylelintignore",
        Event.globExpand
          ["*.css", "!**/node_modules/**", "!**/bower_components/**"],
        Event.lintFile "/cwd/a.css"]
      { errored := false, output := "a.css", results := [okResult],
        needlessDisables := none }
      (by decide),
    c7_needless_disables_iff testEnv
      { files := some (.list ["*.css"]), reportNeedlessDisables := true }
      [Event.readIgnore "/cwd/.stylelintignore",
        Event.globExpand
          ["*.css", "!**/node_modules/**", "!**/bower_components/**"],
        Event.lintFile "/cwd/a.css"]
      { errored := false, output := "a.css", results := [okResult],
        needlessDisables := some [] }
      (by decide)⟩

/-- C8: a string `formatter` naming none of the built-in formatters (json,
string, verbose) rejects with the Configuration error while the trace shows
no glob expansion and no lint work (only the ignore-file read); and when
the `formatter` option is absent, any produced Report's output is the json
formatter applied to its results. -/
theorem c8_formatter_selection (env : Env) (o : StandaloneOptions)
    (name : String) (env2 : Env) (o2 : StandaloneOptions)
    (tr : List Event) (r : Report)
    (hread :
      readOkOrEnoent (env.readIgnoreFile (resolvedIgnorePath env o)) = true)
    (hconf : filesCodeConflict o = false)
    (hfmt : o.formatter = some (.str name))
    (hn1 : name ≠ "json") (hn2 : name ≠ "string") (hn3 : name ≠ "verbose")
    (hfmt2 : o2.formatter = none)
    (hrep : standalone env2 o2 = (tr, .report r)) :
    standalone env o =
        ([Event.readIgnore (resolvedIgnorePath env o)],
          .rejected (.config invalidFormatterMessage)) ∧
      r.output = env2.formatters.json r.results := by
  constructor
  · rw [standalone_read_proceeds env o hread]
    unfold standaloneAfterRead
    rw [hfmt]
    simp [hconf, selectFormatter, formattersRegistry, hn1, hn2, hn3]
  · obtain ⟨fmtFn, hsel, hout, _, _⟩ :=
      standalone_report_inversion env2 o2 tr r hrep
    rw [hfmt2] at hsel
    unfold selectFormatter at hsel
    cases hsel
    exact hout

/-- C8 witness: the unrecognized name "compact" rejects before any glob or
lint event, and a default-formatter run's output equals the json formatter
applied to its results. -/
theorem c8_witness :
    standalone testEnv
        { files := some (.list ["*.css"]),
          formatter := some (.str "compact") } =
        ([Event.readIgnore "/cwd/.stylelintignore"],
          .rejected (.config invalidFormatterMessage)) ∧
      ({ errored := false, output := "a.css", results := [okResult],
          needlessDisables := none } : Report).output =
        testEnv.formatters.json
          ({ errored := false, output := "a.css", results := [okResult],
             needlessDisables := none } : Report).results :=
  c8_formatter_selection testEnv
    { files := some (.list ["*.css"]), formatter := some (.str "compact") }
    "compact" testEnv { files := some (.list ["*.css"]) }
    [Event.readIgnore "/cwd/.stylelintignore",
      Event.globExpand
        ["*.css", "!**/node_modules/**", "!**/bower_components/**"],
      Event.lintFile "/cwd/a.css"]
    { errored := false, output := "a.css", results := [okResult],
      needlessDisables := none }
    (by decide) (by decide) (by rfl) (by decide) (by decide) (by decide)
    (by rfl) (by decide)

/-- C9: the batch output is index-aligned with the input list: whatever
completion order the started operations finish in, slot `i` holds input
`i`'s outcome, and a resolved collection has one result per input with
result `i` the outcome of input `i`. -/
theorem c9_order_preserved (env : Env) (inputs : List String)
    (sched : List Nat) (rs : List StylelintResult)
    (hsched : ∀ i, i < inputs.length → i ∈ sched)
    (hok : collectResults (inputs.map (fun p => lintOneFile env p)) = .ok rs) :
    batchRun env inputs sched =
        (List.range inputs.length).map
          (fun i => some (lintOneFile env (inputs.getD i ""))) ∧
      rs.length = inputs.length ∧
      inputs.map (fun p => lintOneFile env p) = rs.map Except.ok := by
  have hmapeq := collectResults_ok_iff _ rs hok
  refine ⟨?_, ?_, hmapeq⟩
  · apply List.ext_getElem?
    intro j
    unfold batchRun
    rw [fillSlots_getElem?]
    simp only [List.length_replicate]
    by_cases hj : j < inputs.length
    · rw [if_pos ⟨hsched j hj, hj⟩, List.getElem?_map, List.getElem?_range hj]
      rfl
    · rw [if_neg (fun hcon => hj hcon.2)]
      rw [List.getElem?_eq_none (by simpa using Nat.le_of_not_lt hj)]
      rw [List.getElem?_map,
        List.getElem?_eq_none
          (by simpa [List.length_range] using Nat.le_of_not_lt hj)]
      rfl
  · have hlen := congrArg List.length hmapeq
    simpa using hlen.symm

/-- C9 witness: a two-file batch run with reversed completion order still
fills slot i with input i's outcome, and the collected results align. -/
theorem c9_witness :
    batchRun testEnv ["a.css", "b.css"] [1, 0] =
        (List.range 2).map
          (fun i => some (lintOneFile testEnv (["a.css", "b.css"].getD i ""))) ∧
      ([okResult, okResult] : List StylelintResult).length = 2 ∧
      ["a.css", "b.css"].map (fun p => lintOneFile testEnv p) =
        [okResult, okResult].map Except.ok :=
  c9_order_preserved testEnv ["a.css", "b.css"] [1, 0] [okResult, okResult]
    (by decide) (by rfl)

/-- C10: inline-mode presence is decided by `code` being a string: the
empty string with no `files` is linted rather than rejected; `files`
together with `code = ""` still raises the mutual-exclusion Configuration
error; and a non-string `code` with no `files` also raises it. -/
theorem c10_code_string_typing (env : Env) (o : StandaloneOptions)
    (res : StylelintResult) (env2 : Env) (o2 : StandaloneOptions)
    (env3 : Env) (o3 : StandaloneOptions) (t : Bool)
    (hread :
      readOkOrEnoent (env.readIgnoreFile (resolvedIgnorePath env o)) = true)
    (hfiles : o.files = none) (hcode : o.code = some (.str ""))
    (hcodefn : o.codeFilename = none) (hfmt : o.formatter = none)
    (hlint : env.lintCode "" none = .ok res)
    (hfiles2 : filesTruthy o2.files = true)
    (hcode2 : o2.code = some (.str ""))
    (hread2 :
      readOkOrEnoent (env2.readIgnoreFile (resolvedIgnorePath env2 o2)) = true)
    (hfiles3 : o3.files = none) (hcode3 : o3.code = some (.nonString t))
    (hread3 :
      readOkOrEnoent (env3.readIgnoreFile (resolvedIgnorePath env3 o3)) = true) :
    standalone env o =
        ([Event.readIgnore (resolvedIgnorePath env o),
          Event.lintCode "" none],
          .report (prepareReturnValue env.formatters.json
            o.reportNeedlessDisables env.needlessDisables [res])) ∧
      filesCodeConflict o2 = true ∧
      standalone env2 o2 =
        ([Event.readIgnore (resolvedIgnorePath env2 o2)],
          .rejected (.config filesCodeErrorMessage)) ∧
      filesCodeConflict o3 = true ∧
      standalone env3 o3 =
        ([Event.readIgnore (resolvedIgnorePath env3 o3)],
          .rejected (.config filesCodeErrorMessage)) := by
  have hconf2 : filesCodeConflict o2 = true := by
    simp [filesCodeConflict, hfiles2, hcode2, isValidCode]
  have hconf3 : filesCodeConflict o3 = true := by
    simp [filesCodeConflict, hfiles3, hcode3, isValidCode, filesTruthy]
  refine ⟨?_, hconf2, ?_, hconf3, ?_⟩
  · have hconf : filesCodeConflict o = false := by
      simp [filesCodeConflict, hfiles, hcode, isValidCode, filesTruthy,
        codeTruthy]
    rw [standalone_read_proceeds env o hread]
    unfold standaloneAfterRead
    rw [hfmt]
    simp only [hconf, Bool.false_eq_true, if_false, selectFormatter]
    simp only [hfiles, filesTruthy, Bool.not_false, if_true]
    unfold lintInlineMode
    have h1 : inlineCodeString o = "" := by simp [inlineCodeString, hcode]
    have h2 : absoluteCodeFilename env o = none := by
      simp [absoluteCodeFilename, hcodefn]
    rw [h1, h2, hlint]
    rfl
  · rw [standalone_read_proceeds env2 o2 hread2]
    exact afterRead_conflict env2 o2 _ _ hconf2
  · rw [standalone_read_proceeds env3 o3 hread3]
    exact afterRead_conflict env3 o3 _ _ hconf3

/-- C10 witness: `code = ""` alone is linted; `files` plus `code = ""`
and non-string `code` alone both reject with the mutual-exclusion error. -/
theorem c10_witness :
    standalone testEnv { code := some (.str "") } =
        ([Event.readIgnore "/cwd/.stylelintignore",
          Event.lintCode "" none],
          .report (prepareReturnValue testEnv.formatters.json false
            testEnv.needlessDisables [okResult])) ∧
      filesCodeConflict
          { files := some (.str "a.css"), code := some (.str "") } = true ∧
      standalone testEnv
          { files := some (.str "a.css"), code := some (.str "") } =
        ([Event.readIgnore "/cwd/.stylelintignore"],
          .rejected (.config filesCodeErrorMessage)) ∧
      filesCodeConflict { code := some (.nonString true) } = true ∧
      standalone testEnv { code := some (.nonString true) } =
        ([Event.readIgnore "/cwd/.stylelintignore"],
          .rejected (.config filesCodeErrorMessage)) :=
  c10_code_string_typing testEnv { code := some (.str "") } okResult
    testEnv { files := some (.str "a.css"), code := some (.str "") }
    testEnv { code := some (.nonString true) } true
    (by decide) (by decide) (by decide) (by decide) (by rfl) (by rfl)
    (by decide) (by decide) (by decide) (by decide) (by decide) (by decide)
